import Mathlib

/-!
Shallow embedding of the GDPR user-deletion orchestration engine:
the identifier loader/deduplicator and run coordinator (`main` in
`scripts/delete-users` as compiled by the pipeline), the relational
purge engine (`runGdprSqlWithTempTable` in `db.ts`) and the external
eraser client (`deleteUsersAmplitude` in `src/amplitude.ts`).

Network and database effects are modelled by oracles deciding each
call's outcome, and by an explicit trace of the effectful operations
the code issues (BEGIN/COMMIT/ROLLBACK, staging-table operations, and
external fetch calls).  Cooperative concurrency of the external client
is modelled sequentially in batch order: the properties verified here
(per-identifier outcome coverage, per-batch retry behaviour, commit or
rollback placement, exit codes) are invariant under the interleaving
of batches, which only permutes trace segments between batches.
-/

namespace Gdpr

/-- Partition a list into consecutive pieces of at most `size` elements;
embeds the loop `for (let i = 0; i < xs.length; i += size) slice(i, i+size)`
used both by `runGdprSqlWithTempTable` (chunks) and by
`deleteUsersAmplitude` (batches).  With `size = 0` the JS loop would not
terminate; the model returns `[]` in that (never exercised) case. -/
def chunksOfGo (size : Nat) : Nat → List α → List (List α)
  | _, [] => []
  | 0, _ :: _ => []
  | fuel + 1, x :: xs =>
    if size = 0 then []
    else (x :: xs).take size :: chunksOfGo size fuel ((x :: xs).drop size)

/-- (continued) The recursion consumes at least one element per step
while `size ≥ 1`, so the list's length is enough fuel. -/
def chunksOf (size : Nat) (l : List α) : List (List α) :=
  chunksOfGo size l.length l

/-- Identifier deduplication, embedding `[...new Set(parsedIds.map(String))]`:
keeps the first occurrence of each identifier, in input order. -/
def dedupFirst (l : List String) : List String :=
  l.foldl (fun acc s => if s ∈ acc then acc else acc ++ [s]) []

/-- One step of a relational chunk's transaction in
`runGdprSqlWithTempTable`: `BEGIN`, `CREATE TEMP TABLE ids_to_delete`,
the bulk `INSERT ... UNNEST`, the reviewed deletion SQL, `COMMIT`. -/
inductive DbStep
  | beginTx
  | createTemp
  | insertIds
  | execSql
  | commitTx
deriving DecidableEq, Repr

/-- Observable effectful operations of a run: the relational statements
issued for each chunk, and each external HTTP delete call
(`fetch` in `deleteUsersAmplitude`), tagged with batch index and
attempt number. -/
inductive Event
  | beginTx (chunkIdx : Nat)
  | createTemp (chunkIdx : Nat)
  | insertIds (chunkIdx : Nat) (ids : List String)
  | execSql (chunkIdx : Nat)
  | commitTx (chunkIdx : Nat)
  | rollback (chunkIdx : Nat)
  | fetch (batchIdx attempt : Nat) (ids : List String)
deriving DecidableEq, Repr

/-- The relational chunk index an event belongs to (`none` for external
fetch events). -/
def eventChunkIdx : Event → Option Nat
  | .beginTx i => some i
  | .createTemp i => some i
  | .insertIds i _ => some i
  | .execSql i => some i
  | .commitTx i => some i
  | .rollback i => some i
  | .fetch _ _ _ => none

/-- Whether an event is an external fetch call of batch `b`. -/
def isFetchOf (b : Nat) : Event → Bool
  | .fetch b' _ _ => b' == b
  | _ => false

/-- Whether the database oracle lets every statement of a chunk succeed. -/
def chunkSucceeds (ok : DbStep → Bool) : Bool :=
  ok .beginTx && ok .createTemp && ok .insertIds && ok .execSql && ok .commitTx

/-- One chunk of `runGdprSqlWithTempTable`: the statements are issued in
order; the first failing statement triggers `safeRollback` (the
`catch` block) and the chunk reports failure. -/
def runChunk (idx : Nat) (slice : List String) (ok : DbStep → Bool) :
    List Event × Bool :=
  if ok .beginTx = false then ([.rollback idx], false)
  else if ok .createTemp = false then ([.beginTx idx, .rollback idx], false)
  else if ok .insertIds = false then
    ([.beginTx idx, .createTemp idx, .rollback idx], false)
  else if ok .execSql = false then
    ([.beginTx idx, .createTemp idx, .insertIds idx slice, .rollback idx], false)
  else if ok .commitTx = false then
    ([.beginTx idx, .createTemp idx, .insertIds idx slice, .execSql idx,
      .rollback idx], false)
  else
    ([.beginTx idx, .createTemp idx, .insertIds idx slice, .execSql idx,
      .commitTx idx], true)

/-- The chunk loop of `runGdprSqlWithTempTable`: chunks run sequentially;
the first chunk failure rethrows, so no later chunk is attempted. -/
def runChunks (ok : Nat → DbStep → Bool) :
    List (List String) → Nat → List Event × Except String Unit
  | [], _ => ([], .ok ())
  | c :: rest, idx =>
      let r := runChunk idx c (ok idx)
      if r.2 then
        let rs := runChunks ok rest (idx + 1)
        (r.1 ++ rs.1, rs.2)
      else
        (r.1, .error "relational chunk failed")

/-- Embedding of `runGdprSqlWithTempTable` (`db.ts`): slice the ids into
chunks of `chunkSize` and run each in its own transaction.  The
database oracle `ok` decides, per chunk and statement, whether the
statement succeeds. -/
def runGdprSqlWithTempTable (ids : List String) (chunkSize : Nat)
    (ok : Nat → DbStep → Bool) : List Event × Except String Unit :=
  runChunks ok (chunksOf chunkSize ids) 0

/-- Outcome of one `fetch` call to the external deletion API, decided
once at the I/O boundary: a 2xx response (`res.ok`), a non-ok response
with `status < 500` (permanent, carries the response text used for the
error message), a non-ok response with `status ≥ 500` (transient), or a
thrown transport-level error. -/
inductive FetchResp
  | success
  | clientError (status : Nat) (text : String)
  | serverError (status : Nat)
  | networkError (msg : String)
deriving DecidableEq, Repr

/-- Per-identifier outcome entry (`AmplitudeResult` in `amplitude.ts`). -/
structure AmplitudeResult where
  id : String
  ok : Bool
  error : Option String
deriving DecidableEq, Repr

/-- The jitter-free component of `calculateBackoff`:
`Math.min(capMs, baseMs * Math.pow(2, attempt))` with the source's
only-used arguments `baseMs = 1000`, `capMs = 15000`. -/
def backoffBase (attempt : Nat) : Nat :=
  min 15000 (1000 * 2 ^ attempt)

/-- `calculateBackoff` (`amplitude.ts` lines 5-8): the jitter
`Math.random() * 250` is passed in explicitly as a rational in
`[0, 250)`. -/
def calculateBackoff (attempt : Nat) (jitter : ℚ) : ℚ :=
  (backoffBase attempt : ℚ) + jitter

/-- The `for (let attempt = 0; attempt < maxAttempts; attempt++)` retry
loop of one batch in `deleteUsersAmplitude`, recursing on the number of
remaining iterations (`remaining = maxAttempts - attempt`).  Returns the
fetch events issued and the outcome entries the loop itself pushes:
a 2xx response pushes `ok: true` per id and returns; a `< 500` response
pushes `ok: false` with the failure detail and returns; a `≥ 500`
response sleeps and retries; a thrown transport error on the last
iteration (`attempt === maxAttempts - 1`) pushes a network-error entry
per id, otherwise sleeps and retries.  A loop that exhausts its
iterations without returning pushes nothing here (the caller's
retry-exhausted sweep covers the batch). -/
def runAttempts (maxAttempts bIdx : Nat) (chunk : List String)
    (resp : Nat → FetchResp) : Nat → Nat → List Event × List AmplitudeResult
  | 0, _ => ([], [])
  | remaining + 1, attempt =>
    match resp attempt with
    | .success =>
        ([.fetch bIdx attempt chunk],
         chunk.map fun id => ⟨id, true, none⟩)
    | .clientError status text =>
        ([.fetch bIdx attempt chunk],
         chunk.map fun id =>
           ⟨id, false, some ("Amplitude " ++ toString status ++ ": " ++ text)⟩)
    | .serverError _ =>
        let r := runAttempts maxAttempts bIdx chunk resp remaining (attempt + 1)
        (.fetch bIdx attempt chunk :: r.1, r.2)
    | .networkError msg =>
        if remaining = 0 then
          ([.fetch bIdx attempt chunk],
           chunk.map fun id =>
             ⟨id, false, some ("Network error after " ++ toString maxAttempts
               ++ " attempts: " ++ msg)⟩)
        else
          let r := runAttempts maxAttempts bIdx chunk resp remaining (attempt + 1)
          (.fetch bIdx attempt chunk :: r.1, r.2)

/-- The guarded retry-exhausted sweep at the end of a batch:
`for (const id of chunk) if (!results.find(r => r.id === id))
results.push({id, ok: false, error: "Retry exhausted"})`. -/
def exhaustedSweep (chunk : List String) (results : List AmplitudeResult) :
    List AmplitudeResult :=
  chunk.foldl
    (fun acc id =>
      if acc.any (fun r => r.id = id) then acc
      else acc ++ [⟨id, false, some "Retry exhausted"⟩])
    results

/-- One batch task of `deleteUsersAmplitude`: run the retry loop, append
its entries to the shared `results` array, then run the retry-exhausted
sweep over the batch. -/
def processBatch (maxAttempts bIdx : Nat) (chunk : List String)
    (resp : Nat → FetchResp) (results : List AmplitudeResult) :
    List Event × List AmplitudeResult :=
  let r := runAttempts maxAttempts bIdx chunk resp maxAttempts 0
  (r.1, exhaustedSweep chunk (results ++ r.2))

/-- The batch tasks in batch order, sharing the `results` accumulator.
`p-limit` only bounds how the tasks interleave; the per-identifier
outcomes proved below are interleaving-invariant, so the model runs the
tasks sequentially. -/
def runBatches (resp : Nat → Nat → FetchResp) (maxAttempts : Nat) :
    List (List String) → Nat → List AmplitudeResult →
      List Event × List AmplitudeResult
  | [], _, results => ([], results)
  | c :: rest, idx, results =>
      let r := processBatch maxAttempts idx c (resp idx) results
      let rs := runBatches resp maxAttempts rest (idx + 1) r.2
      (r.1 ++ rs.1, rs.2)

/-- Embedding of `deleteUsersAmplitude` (`src/amplitude.ts`): a falsy
API key throws before any batching or network call; otherwise the ids
are sliced into batches of `batchSize` and processed under the
concurrency limiter (`concurrentBatches` bounds in-flight batches and
affects only scheduling, which the sequential model fixes to batch
order).  `resp b a` is the network oracle: the outcome of batch `b`'s
fetch on attempt `a`. -/
def deleteUsersAmplitude (publicIds : List String) (apiKey : String)
    (batchSize concurrentBatches maxAttempts : Nat)
    (resp : Nat → Nat → FetchResp) :
    Except String (List Event × List AmplitudeResult) :=
  if apiKey = "" then .error "Missing Amplitude API key"
  else .ok (runBatches resp maxAttempts (chunksOf batchSize publicIds) 0 [])

/-- The entries a single batch contributes to the shared results array
(independent of every other batch): the retry loop's own entries when it
pushed any, else one retry-exhausted entry per id of the batch. -/
def batchEntries (maxAttempts bIdx : Nat) (chunk : List String)
    (resp : Nat → FetchResp) : List AmplitudeResult :=
  let pushed := (runAttempts maxAttempts bIdx chunk resp maxAttempts 0).2
  if pushed.isEmpty then
    chunk.map fun id => ⟨id, false, some "Retry exhausted"⟩
  else pushed

/-- Concatenation of every batch's own entries, in batch order. -/
def allBatchEntries (maxAttempts : Nat) (resp : Nat → Nat → FetchResp) :
    List (List String) → Nat → List AmplitudeResult
  | [], _ => []
  | c :: rest, idx =>
      batchEntries maxAttempts idx c (resp idx)
        ++ allBatchEntries maxAttempts resp rest (idx + 1)

/-- Concatenation of every batch's fetch events, in batch order. -/
def allBatchEvents (maxAttempts : Nat) (resp : Nat → Nat → FetchResp) :
    List (List String) → Nat → List Event
  | [], _ => []
  | c :: rest, idx =>
      (runAttempts maxAttempts idx c (resp idx) maxAttempts 0).1
        ++ allBatchEvents maxAttempts resp rest (idx + 1)

/-- `report.database.status` in the `GdprReport` of `delete-users`. -/
inductive DbStatus
  | success
  | failed
deriving DecidableEq, Repr

/-- The fields of the `GdprReport` record that the run mutates
(audit metadata such as `requestId`, `requestedBy` and the timestamps
is copied through unchanged and omitted). -/
structure GdprReport where
  dryRun : Bool
  totalIds : Nat
  uniqueIds : Nat
  databaseStatus : DbStatus
  databaseError : Option String
  amplitudeSuccessful : Nat
  amplitudeFailed : Nat
  amplitudeResults : List AmplitudeResult
deriving DecidableEq, Repr

/-- The configuration `main` reads from the environment: `DRY_RUN`,
`DB_CHUNK_SIZE`, `AMP_BATCH_SIZE`, `AMP_CONCURRENCY`, `AMP_MAX_ATTEMPTS`. -/
structure MainConfig where
  dryRun : Bool
  chunkSize : Nat
  batchSize : Nat
  concurrentBatches : Nat
  maxAttempts : Nat
deriving DecidableEq, Repr

/-- A finished run: the trace of effectful operations issued, the final
report, and the process exit code. -/
structure RunOutput where
  trace : List Event
  report : GdprReport
  exitCode : Nat
deriving DecidableEq, Repr

/-- The cooperative cancellation flag set by the SIGTERM/SIGINT
handlers, modelled by the logical time (trace position) at which the
signal arrives: `flagSet t k` is the flag's value observed by a check
occurring after `k` events, with `t = none` meaning no signal. -/
def flagSet (signalTime : Option Nat) (k : Nat) : Bool :=
  match signalTime with
  | none => false
  | some t => t ≤ k

/-- Embedding of `main` in the compiled `delete-users` script: read and
validate the id list, deduplicate, check the abort flag, run the
relational purge (its failure is fatal: report `failed`, exit 1, the
external client never invoked), check the abort flag again, run the
external eraser (a thrown error there is also fatal), aggregate counts,
and exit 2 when any external deletion failed, else 0.  `dryRun` is
recorded in the report; the source passes it to neither
`runGdprSqlWithTempTable` nor `deleteUsersAmplitude`. -/
def mainRun (inputIds : List String) (cfg : MainConfig)
    (dbOk : Nat → DbStep → Bool) (resp : Nat → Nat → FetchResp)
    (apiKey : String) (signalTime : Option Nat) : RunOutput :=
  let report0 : GdprReport :=
    { dryRun := cfg.dryRun, totalIds := inputIds.length, uniqueIds := 0,
      databaseStatus := .success, databaseError := none,
      amplitudeSuccessful := 0, amplitudeFailed := 0, amplitudeResults := [] }
  if inputIds.isEmpty then
    { trace := [], report := report0, exitCode := 1 }
  else
    let allIds := dedupFirst inputIds
    let report1 := { report0 with uniqueIds := allIds.length }
    if flagSet signalTime 0 then
      { trace := [], report := report1, exitCode := 1 }
    else
      let dbOut := runGdprSqlWithTempTable allIds cfg.chunkSize dbOk
      match dbOut.2 with
      | .error e =>
          let reportF :=
            { report1 with databaseStatus := .failed, databaseError := some e }
          { trace := dbOut.1, report := reportF, exitCode := 1 }
      | .ok _ =>
          if flagSet signalTime dbOut.1.length then
            { trace := dbOut.1, report := report1, exitCode := 1 }
          else
            match deleteUsersAmplitude allIds apiKey cfg.batchSize
                cfg.concurrentBatches cfg.maxAttempts resp with
            | .error _ =>
                { trace := dbOut.1, report := report1, exitCode := 1 }
            | .ok out =>
                let succ := (out.2.filter fun r => r.ok).length
                let fail := (out.2.filter fun r => !r.ok).length
                let reportA :=
                  { report1 with
                      amplitudeSuccessful := succ
                      amplitudeFailed := fail
                      amplitudeResults := out.2 }
                { trace := dbOut.1 ++ out.1, report := reportA,
                  exitCode := if 0 < fail then 2 else 0 }

/-- Terminal status of a run. -/
inductive TerminalStatus
  | fullSuccess
  | partialSuccess
  | fatal
deriving DecidableEq, Repr

/-- Modelled from the spec: the Report's terminal status is not an
explicit field of the source's `GdprReport`; spec section 6 documents
the process exit status as its encoding — `0` = full success, `1` =
fatal error (input or relational), `2` = partial success. -/
def terminalStatus (exitCode : Nat) : TerminalStatus :=
  if exitCode = 1 then .fatal
  else if exitCode = 2 then .partialSuccess
  else .fullSuccess

theorem chunksOfGo_congr {α : Type} (size : Nat) :
    ∀ (f1 : Nat) (l : List α) (f2 : Nat), l.length ≤ f1 → l.length ≤ f2 →
      chunksOfGo size f1 l = chunksOfGo size f2 l := by
  intro f1
  induction f1 with
  | zero =>
    intro l f2 h1 _
    match l with
    | [] => cases f2 <;> rfl
    | x :: xs => simp at h1
  | succ f ih =>
    intro l f2 h1 h2
    match l with
    | [] => cases f2 <;> rfl
    | x :: xs =>
      match f2, h2 with
      | 0, h2 => simp at h2
      | g + 1, h2 =>
        by_cases hz : size = 0
        · simp [chunksOfGo, hz]
        · simp only [chunksOfGo, if_neg hz]
          congr 1
          apply ih
          · simp only [List.length_drop, List.length_cons]
            simp only [List.length_cons] at h1
            omega
          · simp only [List.length_drop, List.length_cons]
            simp only [List.length_cons] at h2
            omega

theorem chunksOf_nil {α : Type} (size : Nat) :
    chunksOf size ([] : List α) = [] := rfl

theorem chunksOf_cons {α : Type} {size : Nat} (h : size ≠ 0) (x : α)
    (xs : List α) :
    chunksOf size (x :: xs) =
      (x :: xs).take size :: chunksOf size ((x :: xs).drop size) := by
  show chunksOfGo size (x :: xs).length (x :: xs) = _
  simp only [List.length_cons]
  simp only [chunksOfGo, if_neg h]
  congr 1
  apply chunksOfGo_congr
  · simp only [List.length_drop, List.length_cons]
    omega
  · simp

theorem chunksOf_cons_zero {α : Type} (x : α) (xs : List α) :
    chunksOf 0 (x :: xs) = [] := by
  show chunksOfGo 0 (x :: xs).length (x :: xs) = _
  simp only [List.length_cons]
  simp [chunksOfGo]

theorem chunksOf_flatten {α : Type} (size : Nat) (hs : 1 ≤ size)
    (l : List α) : (chunksOf size l).flatten = l := by
  generalize hn : l.length = n
  induction n using Nat.strong_induction_on generalizing l with
  | _ n ih =>
    match l with
    | [] => rw [chunksOf_nil]; rfl
    | x :: xs =>
      rw [chunksOf_cons (by omega) x xs]
      have hlt : ((x :: xs).drop size).length < n := by
        subst hn
        simp only [List.length_drop, List.length_cons]
        omega
      simp only [List.flatten_cons, ih _ hlt _ rfl, List.take_append_drop]

theorem length_le_of_mem_chunksOf {α : Type} {size : Nat} {c : List α}
    {l : List α} (h : c ∈ chunksOf size l) : c.length ≤ size := by
  generalize hn : l.length = n
  induction n using Nat.strong_induction_on generalizing l with
  | _ n ih =>
    match l with
    | [] => rw [chunksOf_nil] at h; simp at h
    | x :: xs =>
      by_cases hz : size = 0
      · subst hz
        rw [chunksOf_cons_zero] at h
        simp at h
      · rw [chunksOf_cons hz x xs] at h
        rcases List.mem_cons.mp h with h1 | h2
        · subst h1
          simpa using List.length_take_le size (x :: xs)
        · have hlt : ((x :: xs).drop size).length < n := by
            subst hn
            simp only [List.length_drop, List.length_cons]
            omega
          exact ih _ hlt h2 rfl

theorem ne_nil_of_mem_chunksOf {α : Type} {size : Nat} (hs : 1 ≤ size)
    {c : List α} {l : List α} (h : c ∈ chunksOf size l) : c ≠ [] := by
  generalize hn : l.length = n
  induction n using Nat.strong_induction_on generalizing l with
  | _ n ih =>
    match l with
    | [] => rw [chunksOf_nil] at h; simp at h
    | x :: xs =>
      rw [chunksOf_cons (by omega) x xs] at h
      rcases List.mem_cons.mp h with h1 | h2
      · subst h1
        match size with
        | s + 1 => simp [List.take_cons]
      · have hlt : ((x :: xs).drop size).length < n := by
          subst hn
          simp only [List.length_drop, List.length_cons]
          omega
        exact ih _ hlt h2 rfl

theorem chunksOf_pairwise_disjoint {size : Nat} (hs : 1 ≤ size)
    {l : List String} (hnd : l.Nodup) :
    (chunksOf size l).Pairwise List.Disjoint ∧
      ∀ c ∈ chunksOf size l, c.Nodup := by
  have h : (chunksOf size l).flatten.Nodup := by
    rw [chunksOf_flatten size hs l]
    exact hnd
  rw [List.nodup_flatten] at h
  exact ⟨h.2, h.1⟩

theorem dedupFirst_aux_nodup (l : List String) :
    ∀ acc : List String, acc.Nodup →
      (l.foldl (fun acc s => if s ∈ acc then acc else acc ++ [s]) acc).Nodup := by
  induction l with
  | nil => intro acc h; simpa using h
  | cons x xs ih =>
    intro acc h
    simp only [List.foldl_cons]
    by_cases hx : x ∈ acc
    · rw [if_pos hx]
      exact ih acc h
    · rw [if_neg hx]
      refine ih _ ?_
      rw [List.nodup_append]
      refine ⟨h, List.nodup_singleton x, ?_⟩
      intro a ha hb
      simp only [List.mem_singleton] at hb
      subst hb
      exact hx ha

theorem dedupFirst_nodup (l : List String) : (dedupFirst l).Nodup :=
  dedupFirst_aux_nodup l [] List.nodup_nil

theorem dedupFirst_aux_length (l : List String) :
    ∀ acc : List String,
      (l.foldl (fun acc s => if s ∈ acc then acc else acc ++ [s]) acc).length
        ≤ acc.length + l.length := by
  induction l with
  | nil => intro acc; simp
  | cons x xs ih =>
    intro acc
    simp only [List.foldl_cons, List.length_cons]
    by_cases hx : x ∈ acc
    · rw [if_pos hx]
      have := ih acc
      omega
    · rw [if_neg hx]
      have := ih (acc ++ [x])
      simp only [List.length_append, List.length_singleton] at this
      omega

theorem dedupFirst_length_le (l : List String) :
    (dedupFirst l).length ≤ l.length := by
  have := dedupFirst_aux_length l []
  simpa [dedupFirst] using this

theorem runChunk_success {idx : Nat} {slice : List String} {ok : DbStep → Bool}
    (h : chunkSucceeds ok = true) :
    runChunk idx slice ok =
      ([.beginTx idx, .createTemp idx, .insertIds idx slice, .execSql idx,
        .commitTx idx], true) := by
  simp only [chunkSucceeds, Bool.and_eq_true] at h
  obtain ⟨⟨⟨⟨h1, h2⟩, h3⟩, h4⟩, h5⟩ := h
  simp [runChunk, h1, h2, h3, h4, h5]

theorem runChunk_fail {idx : Nat} {slice : List String} {ok : DbStep → Bool}
    (h : chunkSucceeds ok = false) :
    (runChunk idx slice ok).2 = false ∧
      Event.rollback idx ∈ (runChunk idx slice ok).1 := by
  unfold runChunk
  split_ifs with h1 h2 h3 h4 h5
  all_goals simp_all [chunkSucceeds]

theorem runChunk_mem_superset {idx : Nat} {slice : List String}
    {ok : DbStep → Bool} :
    ∀ e ∈ (runChunk idx slice ok).1,
      e ∈ [Event.beginTx idx, Event.createTemp idx, Event.insertIds idx slice,
           Event.execSql idx, Event.commitTx idx, Event.rollback idx] := by
  unfold runChunk
  split_ifs <;> intro e he <;>
    simp only [List.mem_cons, List.not_mem_nil, or_false] at he ⊢ <;> tauto

theorem runChunk_chunkIdx {idx : Nat} {slice : List String} {ok : DbStep → Bool}
    {e : Event} (he : e ∈ (runChunk idx slice ok).1) :
    eventChunkIdx e = some idx := by
  have h := runChunk_mem_superset e he
  simp only [List.mem_cons, List.not_mem_nil, or_false] at h
  rcases h with rfl | rfl | rfl | rfl | rfl | rfl <;> rfl

theorem runChunks_mem_chunkIdx :
    ∀ (chunks : List (List String)) (ok : Nat → DbStep → Bool) (idx : Nat)
      (e : Event), e ∈ (runChunks ok chunks idx).1 →
      ∃ c, eventChunkIdx e = some c := by
  intro chunks
  induction chunks with
  | nil => intro ok idx e he; simp [runChunks] at he
  | cons c rest ih =>
    intro ok idx e he
    simp only [runChunks] at he
    by_cases hr : (runChunk idx c (ok idx)).2
    · rw [if_pos hr] at he
      rcases List.mem_append.mp he with h1 | h2
      · exact ⟨idx, runChunk_chunkIdx h1⟩
      · exact ih ok (idx + 1) e h2
    · rw [if_neg hr] at he
      exact ⟨idx, runChunk_chunkIdx he⟩

theorem runChunks_no_fetch {chunks : List (List String)}
    {ok : Nat → DbStep → Bool} {idx : Nat} {b a : Nat} {ids : List String} :
    Event.fetch b a ids ∉ (runChunks ok chunks idx).1 := by
  intro h
  obtain ⟨c, hc⟩ := runChunks_mem_chunkIdx chunks ok idx _ h
  simp [eventChunkIdx] at hc

theorem runChunks_firstFail :
    ∀ (chunks : List (List String)) (ok : Nat → DbStep → Bool) (idx k : Nat),
      k < chunks.length →
      (∀ j, j < k → chunkSucceeds (ok (idx + j)) = true) →
      chunkSucceeds (ok (idx + k)) = false →
      (runChunks ok chunks idx).2 = .error "relational chunk failed" ∧
      Event.rollback (idx + k) ∈ (runChunks ok chunks idx).1 ∧
      (∀ j, j < k → Event.commitTx (idx + j) ∈ (runChunks ok chunks idx).1) ∧
      (∀ e ∈ (runChunks ok chunks idx).1,
        ∀ c, eventChunkIdx e = some c → c ≤ idx + k) ∧
      (∀ j, j < idx + k → Event.rollback j ∉ (runChunks ok chunks idx).1) := by
  intro chunks
  induction chunks with
  | nil => intro ok idx k hk; simp at hk
  | cons c rest ih =>
    intro ok idx k hk hpre hfail
    match k with
    | 0 =>
      simp only [Nat.add_zero] at hfail
      obtain ⟨hr2, hmem⟩ := @runChunk_fail idx c (ok idx) hfail
      have hrun : runChunks ok (c :: rest) idx =
          ((runChunk idx c (ok idx)).1, .error "relational chunk failed") := by
        simp only [runChunks]
        rw [if_neg (by simp [hr2])]
      refine ⟨by rw [hrun], ?_, ?_, ?_, ?_⟩
      · rw [hrun]; simpa using hmem
      · intro j hj; omega
      · intro e he cc hcc
        rw [hrun] at he
        have := runChunk_chunkIdx he
        rw [this] at hcc
        simp at hcc
        omega
      · intro j hj hmemj
        rw [hrun] at hmemj
        have := runChunk_chunkIdx hmemj
        simp [eventChunkIdx] at this
        omega
    | k' + 1 =>
      have hhead : chunkSucceeds (ok idx) = true := by
        have := hpre 0 (by omega)
        simpa using this
      have hsucc := @runChunk_success idx c (ok idx) hhead
      have hrun : runChunks ok (c :: rest) idx =
          ((runChunk idx c (ok idx)).1 ++ (runChunks ok rest (idx + 1)).1,
            (runChunks ok rest (idx + 1)).2) := by
        simp only [runChunks]
        rw [if_pos (by rw [hsucc])]
      have hk' : k' < rest.length := by simp at hk; omega
      have hpre' : ∀ j, j < k' → chunkSucceeds (ok (idx + 1 + j)) = true := by
        intro j hj
        have := hpre (j + 1) (by omega)
        have harith : idx + (j + 1) = idx + 1 + j := by omega
        rwa [harith] at this
      have hfail' : chunkSucceeds (ok (idx + 1 + k')) = false := by
        have harith : idx + (k' + 1) = idx + 1 + k' := by omega
        rwa [harith] at hfail
      obtain ⟨ih1, ih2, ih3, ih4, ih5⟩ := ih ok (idx + 1) k' hk' hpre' hfail'
      have harith : idx + (k' + 1) = idx + 1 + k' := by omega
      refine ⟨by rw [hrun]; exact ih1, ?_, ?_, ?_, ?_⟩
      · rw [hrun]
        rw [harith]
        exact List.mem_append.mpr (Or.inr ih2)
      · intro j hj
        rw [hrun]
        match j with
        | 0 =>
          refine List.mem_append.mpr (Or.inl ?_)
          rw [hsucc]
          simp
        | j'' + 1 =>
          refine List.mem_append.mpr (Or.inr ?_)
          have := ih3 j'' (by omega)
          have ha2 : idx + 1 + j'' = idx + (j'' + 1) := by omega
          rwa [ha2] at this
      · intro e he cc hcc
        rw [hrun] at he
        rcases List.mem_append.mp he with h1 | h2
        · have := runChunk_chunkIdx h1
          rw [this] at hcc
          simp at hcc
          omega
        · have := ih4 e h2 cc hcc
          omega
      · intro j hj hmemj
        rw [hrun] at hmemj
        rcases List.mem_append.mp hmemj with h1 | h2
        · rw [hsucc] at h1
          simp at h1
        · exact ih5 j (by omega) h2

theorem runAttempts_snd_shape (maxAttempts bIdx : Nat) (chunk : List String)
    (resp : Nat → FetchResp) :
    ∀ (remaining attempt : Nat),
      (runAttempts maxAttempts bIdx chunk resp remaining attempt).2 = [] ∨
      ∃ (b : Bool) (e : Option String),
        (runAttempts maxAttempts bIdx chunk resp remaining attempt).2 =
          chunk.map fun id => ⟨id, b, e⟩ := by
  intro remaining
  induction remaining with
  | zero => intro attempt; left; simp [runAttempts]
  | succ r ih =>
    intro attempt
    cases hr : resp attempt with
    | success =>
        right
        exact ⟨true, none, by simp [runAttempts, hr]⟩
    | clientError status text =>
        right
        exact ⟨false, some ("Amplitude " ++ toString status ++ ": " ++ text),
          by simp [runAttempts, hr]⟩
    | serverError s =>
        have := ih (attempt + 1)
        simpa [runAttempts, hr] using this
    | networkError msg =>
        by_cases h0 : r = 0
        · right
          exact ⟨false, some ("Network error after " ++ toString maxAttempts
            ++ " attempts: " ++ msg), by simp [runAttempts, hr, h0]⟩
        · have := ih (attempt + 1)
          simpa [runAttempts, hr, h0] using this

theorem any_id_eq_true_iff (results : List AmplitudeResult) (x : String) :
    (results.any fun r => r.id = x) = true ↔
      x ∈ results.map fun r => r.id := by
  simp [List.any_eq_true, List.mem_map]

theorem any_id_eq_false_iff (results : List AmplitudeResult) (x : String) :
    (results.any fun r => r.id = x) = false ↔
      x ∉ results.map fun r => r.id := by
  rw [← any_id_eq_true_iff]
  simp

theorem exhaustedSweep_noop (chunk : List String)
    (results : List AmplitudeResult)
    (h : ∀ id ∈ chunk, (results.any fun r => r.id = id) = true) :
    exhaustedSweep chunk results = results := by
  induction chunk generalizing results with
  | nil => simp [exhaustedSweep]
  | cons x xs ih =>
    simp only [exhaustedSweep, List.foldl_cons]
    rw [if_pos (h x (by simp))]
    exact ih results fun id hid => h id (by simp [hid])

theorem exhaustedSweep_covers (chunk : List String) :
    ∀ results : List AmplitudeResult, chunk.Nodup →
      (∀ id ∈ chunk, (results.any fun r => r.id = id) = false) →
      exhaustedSweep chunk results =
        results ++ chunk.map fun id => ⟨id, false, some "Retry exhausted"⟩ := by
  induction chunk with
  | nil => intro results _ _; simp [exhaustedSweep]
  | cons x xs ih =>
    intro results hnd h
    simp only [exhaustedSweep, List.foldl_cons]
    rw [if_neg (by rw [h x (by simp)]; simp)]
    have hnd' : xs.Nodup := hnd.of_cons
    have hx : x ∉ xs := (List.nodup_cons.mp hnd).1
    have h' : ∀ id ∈ xs,
        ((results ++ [(⟨x, false, some "Retry exhausted"⟩ : AmplitudeResult)]).any
          fun r => r.id = id) = false := by
      intro id hid
      rw [List.any_append]
      simp only [Bool.or_eq_false_iff]
      refine ⟨h id (by simp [hid]), ?_⟩
      simp only [List.any_cons, List.any_nil, Bool.or_false]
      have hne : id ≠ x := fun he => hx (he ▸ hid)
      simp only [decide_eq_false_iff_not]
      exact fun he => hne he.symm
    have hrec := ih (results ++ [(⟨x, false, some "Retry exhausted"⟩ : AmplitudeResult)]) hnd' h'
    rw [exhaustedSweep] at hrec
    rw [hrec]
    simp

theorem processBatch_snd (maxAttempts bIdx : Nat) (chunk : List String)
    (resp : Nat → FetchResp) (results : List AmplitudeResult)
    (hnd : chunk.Nodup)
    (h : ∀ id ∈ chunk, (results.any fun r => r.id = id) = false) :
    (processBatch maxAttempts bIdx chunk resp results).2 =
      results ++ batchEntries maxAttempts bIdx chunk resp := by
  simp only [processBatch, batchEntries]
  rcases runAttempts_snd_shape maxAttempts bIdx chunk resp maxAttempts 0 with
    hsh | ⟨b, e, hsh⟩
  · rw [hsh]
    simp only [List.isEmpty_nil, if_pos, List.append_nil]
    exact exhaustedSweep_covers chunk results hnd h
  · rw [hsh]
    match chunk with
    | [] => simp [exhaustedSweep]
    | y :: ys =>
      rw [if_neg (by simp)]
      refine exhaustedSweep_noop (y :: ys) _ ?_
      intro id hid
      rw [List.any_eq_true]
      refine ⟨⟨id, b, e⟩, ?_, by simp⟩
      exact List.mem_append.mpr (Or.inr (List.mem_map_of_mem _ hid))

theorem batchEntries_map_id (maxAttempts bIdx : Nat) (chunk : List String)
    (resp : Nat → FetchResp) :
    (batchEntries maxAttempts bIdx chunk resp).map (fun r => r.id) = chunk := by
  simp only [batchEntries]
  rcases runAttempts_snd_shape maxAttempts bIdx chunk resp maxAttempts 0 with
    hsh | ⟨b, e, hsh⟩
  · rw [hsh]
    simp only [List.isEmpty_nil, if_pos, List.map_map]
    simp [Function.comp_def]
  · rw [hsh]
    match chunk with
    | [] => simp
    | y :: ys =>
      rw [if_neg (by simp)]
      rw [List.map_map]
      simp [Function.comp_def]

theorem runBatches_fst (resp : Nat → Nat → FetchResp) (maxAttempts : Nat) :
    ∀ (chunks : List (List String)) (idx : Nat)
      (results : List AmplitudeResult),
      (runBatches resp maxAttempts chunks idx results).1 =
        allBatchEvents maxAttempts resp chunks idx := by
  intro chunks
  induction chunks with
  | nil => intro idx results; simp [runBatches, allBatchEvents]
  | cons c rest ih =>
    intro idx results
    simp only [runBatches, allBatchEvents, processBatch]
    rw [ih]

theorem runBatches_snd (resp : Nat → Nat → FetchResp) (maxAttempts : Nat) :
    ∀ (chunks : List (List String)) (idx : Nat)
      (results : List AmplitudeResult),
      ((results.map fun r => r.id) ++ chunks.flatten).Nodup →
      (runBatches resp maxAttempts chunks idx results).2 =
        results ++ allBatchEntries maxAttempts resp chunks idx := by
  intro chunks
  induction chunks with
  | nil => intro idx results _; simp [runBatches, allBatchEntries]
  | cons c rest ih =>
    intro idx results hnd
    simp only [runBatches, allBatchEntries]
    have hndc : c.Nodup := by
      rw [List.flatten_cons, ← List.append_assoc] at hnd
      have := (List.nodup_append.mp ((List.nodup_append.mp hnd).1)).2.1
      exact this
    have habs : ∀ id ∈ c, (results.any fun r => r.id = id) = false := by
      intro id hid
      rw [any_id_eq_false_iff]
      intro hmem
      rw [List.flatten_cons, ← List.append_assoc] at hnd
      have hdisj := (List.nodup_append.mp ((List.nodup_append.mp hnd).1)).2.2
      exact hdisj hmem hid
    have hpb := processBatch_snd maxAttempts idx c (resp idx) results hndc habs
    rw [hpb]
    have hnd' : (((results ++ batchEntries maxAttempts idx c (resp idx)).map
        fun r => r.id) ++ rest.flatten).Nodup := by
      rw [List.map_append, batchEntries_map_id, List.append_assoc]
      rw [List.flatten_cons, ← List.append_assoc] at hnd
      rwa [List.append_assoc] at hnd
    rw [ih (idx + 1) _ hnd']
    rw [List.append_assoc]

theorem allBatchEntries_map_id (maxAttempts : Nat)
    (resp : Nat → Nat → FetchResp) :
    ∀ (chunks : List (List String)) (idx : Nat),
      (allBatchEntries maxAttempts resp chunks idx).map (fun r => r.id) =
        chunks.flatten := by
  intro chunks
  induction chunks with
  | nil => intro idx; simp [allBatchEntries]
  | cons c rest ih =>
    intro idx
    simp only [allBatchEntries, List.map_append, List.flatten_cons]
    rw [batchEntries_map_id, ih]

theorem runAttempts_fst_shape (maxAttempts bIdx : Nat) (chunk : List String)
    (resp : Nat → FetchResp) :
    ∀ (remaining attempt : Nat),
      ∀ e ∈ (runAttempts maxAttempts bIdx chunk resp remaining attempt).1,
        ∃ a, e = .fetch bIdx a chunk := by
  intro remaining
  induction remaining with
  | zero => intro attempt e he; simp [runAttempts] at he
  | succ r ih =>
    intro attempt e he
    cases hr : resp attempt with
    | success =>
        simp [runAttempts, hr] at he
        exact ⟨attempt, he⟩
    | clientError status text =>
        simp [runAttempts, hr] at he
        exact ⟨attempt, he⟩
    | serverError s =>
        simp only [runAttempts, hr] at he
        rcases List.mem_cons.mp he with h1 | h2
        · exact ⟨attempt, h1⟩
        · exact ih (attempt + 1) e h2
    | networkError msg =>
        by_cases h0 : r = 0
        · simp [runAttempts, hr, h0] at he
          exact ⟨attempt, he⟩
        · simp only [runAttempts, hr, if_neg h0] at he
          rcases List.mem_cons.mp he with h1 | h2
          · exact ⟨attempt, h1⟩
          · exact ih (attempt + 1) e h2

theorem runAttempts_first_fetch (maxAttempts bIdx : Nat) (chunk : List String)
    (resp : Nat → FetchResp) (remaining attempt : Nat)
    (h : 1 ≤ remaining) :
    Event.fetch bIdx attempt chunk ∈
      (runAttempts maxAttempts bIdx chunk resp remaining attempt).1 := by
  match remaining, h with
  | r + 1, _ =>
    cases hr : resp attempt with
    | success => simp [runAttempts, hr]
    | clientError status text => simp [runAttempts, hr]
    | serverError s => simp [runAttempts, hr]
    | networkError msg =>
        by_cases h0 : r = 0
        · simp [runAttempts, hr, h0]
        · simp [runAttempts, hr, h0]

theorem runAttempts_clientError_first (maxAttempts bIdx : Nat)
    (chunk : List String) (resp : Nat → FetchResp) (r attempt : Nat)
    (status : Nat) (text : String)
    (h : resp attempt = .clientError status text) :
    runAttempts maxAttempts bIdx chunk resp (r + 1) attempt =
      ([.fetch bIdx attempt chunk],
        chunk.map fun id =>
          ⟨id, false, some ("Amplitude " ++ toString status ++ ": " ++ text)⟩) := by
  simp [runAttempts, h]

theorem runAttempts_transient_length (maxAttempts bIdx : Nat)
    (chunk : List String) (resp : Nat → FetchResp)
    (htr : ∀ a, (∃ s, resp a = .serverError s) ∨
      (∃ m, resp a = .networkError m)) :
    ∀ (remaining attempt : Nat),
      (runAttempts maxAttempts bIdx chunk resp remaining attempt).1.length =
        remaining := by
  intro remaining
  induction remaining with
  | zero => intro attempt; simp [runAttempts]
  | succ r ih =>
    intro attempt
    rcases htr attempt with ⟨s, hs⟩ | ⟨m, hm⟩
    · simp only [runAttempts, hs, List.length_cons]
      rw [ih (attempt + 1)]
    · by_cases h0 : r = 0
      · subst h0
        simp [runAttempts, hm]
      · simp only [runAttempts, hm, if_neg h0, List.length_cons]
        rw [ih (attempt + 1)]

theorem allBatchEvents_mem (maxAttempts : Nat) (resp : Nat → Nat → FetchResp) :
    ∀ (chunks : List (List String)) (idx : Nat) (e : Event),
      e ∈ allBatchEvents maxAttempts resp chunks idx →
      ∃ b a ids, e = .fetch b a ids ∧ idx ≤ b ∧ b < idx + chunks.length := by
  intro chunks
  induction chunks with
  | nil => intro idx e he; simp [allBatchEvents] at he
  | cons c rest ih =>
    intro idx e he
    simp only [allBatchEvents] at he
    rcases List.mem_append.mp he with h1 | h2
    · obtain ⟨a, ha⟩ := runAttempts_fst_shape maxAttempts idx c (resp idx)
        maxAttempts 0 e h1
      exact ⟨idx, a, c, ha, Nat.le_refl idx, by simp⟩
    · obtain ⟨b, a, ids, hb, hle, hlt⟩ := ih (idx + 1) e h2
      refine ⟨b, a, ids, hb, by omega, by simp; omega⟩

theorem allBatchEvents_filter (maxAttempts : Nat)
    (resp : Nat → Nat → FetchResp) :
    ∀ (chunks : List (List String)) (idx j : Nat) (hj : j < chunks.length),
      (allBatchEvents maxAttempts resp chunks idx).filter
          (isFetchOf (idx + j)) =
        (runAttempts maxAttempts (idx + j) (chunks.get ⟨j, hj⟩)
          (resp (idx + j)) maxAttempts 0).1.filter (isFetchOf (idx + j)) := by
  intro chunks
  induction chunks with
  | nil => intro idx j hj; simp at hj
  | cons c rest ih =>
    intro idx j hj
    simp only [allBatchEvents, List.filter_append]
    match j with
    | 0 =>
      have hrest : (allBatchEvents maxAttempts resp rest (idx + 1)).filter
          (isFetchOf (idx + 0)) = [] := by
        rw [List.filter_eq_nil_iff]
        intro e he
        obtain ⟨b, a, ids, hb, hle, _⟩ :=
          allBatchEvents_mem maxAttempts resp rest (idx + 1) e he
        subst hb
        simp only [isFetchOf]
        simp only [beq_iff_eq]
        omega
      rw [hrest, List.append_nil]
      simp
    | j'' + 1 =>
      have hhead : (runAttempts maxAttempts idx c (resp idx)
          maxAttempts 0).1.filter (isFetchOf (idx + (j'' + 1))) = [] := by
        rw [List.filter_eq_nil_iff]
        intro e he
        obtain ⟨a, ha⟩ := runAttempts_fst_shape maxAttempts idx c (resp idx)
          maxAttempts 0 e he
        subst ha
        simp only [isFetchOf]
        simp only [beq_iff_eq]
        omega
      rw [hhead, List.nil_append]
      have harith : idx + (j'' + 1) = (idx + 1) + j'' := by omega
      rw [harith]
      have := ih (idx + 1) j'' (by simp at hj; omega)
      rw [this]
      rfl

/-- The report of a run that got past input validation with the database
stage not (yet) failed: the initial report with the id counts filled in. -/
def baseReport (inputIds : List String) (cfg : MainConfig) : GdprReport :=
  { dryRun := cfg.dryRun, totalIds := inputIds.length,
    uniqueIds := (dedupFirst inputIds).length,
    databaseStatus := .success, databaseError := none,
    amplitudeSuccessful := 0, amplitudeFailed := 0, amplitudeResults := [] }

theorem mainRun_abort_before_db (inputIds : List String) (cfg : MainConfig)
    (dbOk : Nat → DbStep → Bool) (resp : Nat → Nat → FetchResp)
    (apiKey : String) (signalTime : Option Nat)
    (hne : inputIds.isEmpty = false)
    (hflag : flagSet signalTime 0 = true) :
    mainRun inputIds cfg dbOk resp apiKey signalTime =
      { trace := [], report := baseReport inputIds cfg, exitCode := 1 } := by
  simp only [mainRun, hne, Bool.false_eq_true, if_false, hflag, if_true,
    baseReport]

theorem mainRun_db_error (inputIds : List String) (cfg : MainConfig)
    (dbOk : Nat → DbStep → Bool) (resp : Nat → Nat → FetchResp)
    (apiKey : String) (signalTime : Option Nat) (e : String)
    (hne : inputIds.isEmpty = false)
    (hflag : flagSet signalTime 0 = false)
    (he : (runGdprSqlWithTempTable (dedupFirst inputIds) cfg.chunkSize
      dbOk).2 = .error e) :
    mainRun inputIds cfg dbOk resp apiKey signalTime =
      { trace :=
          (runGdprSqlWithTempTable (dedupFirst inputIds) cfg.chunkSize dbOk).1,
        report := { baseReport inputIds cfg with
          databaseStatus := .failed, databaseError := some e },
        exitCode := 1 } := by
  simp only [mainRun, hne, Bool.false_eq_true, if_false, hflag, he, baseReport]

theorem mainRun_abort_after_db (inputIds : List String) (cfg : MainConfig)
    (dbOk : Nat → DbStep → Bool) (resp : Nat → Nat → FetchResp)
    (apiKey : String) (signalTime : Option Nat)
    (hne : inputIds.isEmpty = false)
    (hflag0 : flagSet signalTime 0 = false)
    (hok : (runGdprSqlWithTempTable (dedupFirst inputIds) cfg.chunkSize
      dbOk).2 = .ok ())
    (hflag1 : flagSet signalTime
      (runGdprSqlWithTempTable (dedupFirst inputIds) cfg.chunkSize
        dbOk).1.length = true) :
    mainRun inputIds cfg dbOk resp apiKey signalTime =
      { trace :=
          (runGdprSqlWithTempTable (dedupFirst inputIds) cfg.chunkSize dbOk).1,
        report := baseReport inputIds cfg, exitCode := 1 } := by
  simp only [mainRun, hne, Bool.false_eq_true, if_false, hflag0, hok, hflag1,
    if_true, baseReport]

theorem mainRun_db_ok_amp (inputIds : List String) (cfg : MainConfig)
    (dbOk : Nat → DbStep → Bool) (resp : Nat → Nat → FetchResp)
    (apiKey : String) (signalTime : Option Nat)
    (hne : inputIds.isEmpty = false)
    (hflag0 : flagSet signalTime 0 = false)
    (hok : (runGdprSqlWithTempTable (dedupFirst inputIds) cfg.chunkSize
      dbOk).2 = .ok ())
    (hflag1 : flagSet signalTime
      (runGdprSqlWithTempTable (dedupFirst inputIds) cfg.chunkSize
        dbOk).1.length = false)
    (hkey : ¬ apiKey = "") :
    mainRun inputIds cfg dbOk resp apiKey signalTime =
      { trace :=
          (runGdprSqlWithTempTable (dedupFirst inputIds) cfg.chunkSize dbOk).1
            ++ (runBatches resp cfg.maxAttempts
                 (chunksOf cfg.batchSize (dedupFirst inputIds)) 0 []).1,
        report := { baseReport inputIds cfg with
          amplitudeSuccessful :=
            (((runBatches resp cfg.maxAttempts
                (chunksOf cfg.batchSize (dedupFirst inputIds)) 0 []).2.filter
              fun r => r.ok).length)
          amplitudeFailed :=
            (((runBatches resp cfg.maxAttempts
                (chunksOf cfg.batchSize (dedupFirst inputIds)) 0 []).2.filter
              fun r => !r.ok).length)
          amplitudeResults :=
            (runBatches resp cfg.maxAttempts
              (chunksOf cfg.batchSize (dedupFirst inputIds)) 0 []).2 },
        exitCode :=
          if 0 < (((runBatches resp cfg.maxAttempts
              (chunksOf cfg.batchSize (dedupFirst inputIds)) 0 []).2.filter
            fun r => !r.ok).length) then 2 else 0 } := by
  simp only [mainRun, hne, Bool.false_eq_true, if_false, hflag0, hok, hflag1,
    deleteUsersAmplitude, hkey, baseReport]

/-- C1: the spec claims that with the dry-run flag set no mutation
occurs in either store (every relational transaction rolled back, no
real external network call).  The code contradicts this: `main` parses
`DRY_RUN` into the report only; neither `runGdprSqlWithTempTable` nor
`deleteUsersAmplitude` receives or checks it.  This theorem evaluates
the embedded run at the failing input — one identifier, dry-run on,
every operation succeeding — and exhibits a committed relational
transaction (`commitTx`) and a real external call (`fetch`) in the
trace even though the report records `dryRun = true`. -/
theorem gdpr_C1_dry_run_ignored :
    (mainRun ["u1"] ⟨true, 10, 300, 4, 5⟩ (fun _ _ => true)
      (fun _ _ => .success) "key" none).report.dryRun = true ∧
    Event.commitTx 0 ∈ (mainRun ["u1"] ⟨true, 10, 300, 4, 5⟩ (fun _ _ => true)
      (fun _ _ => .success) "key" none).trace ∧
    Event.fetch 0 0 ["u1"] ∈ (mainRun ["u1"] ⟨true, 10, 300, 4, 5⟩
      (fun _ _ => true) (fun _ _ => .success) "key" none).trace ∧
    (mainRun ["u1"] ⟨true, 10, 300, 4, 5⟩ (fun _ _ => true)
      (fun _ _ => .success) "key" none).exitCode = 0 := by
  decide

/-- C5 counterexample: the claim that every inter-attempt delay is
bounded above by the configured maximum delay cap (15000 ms) is false:
the source adds the jitter after applying the cap, so at attempt 4 with
jitter 100 (a value `Math.random() * 250` can produce) the delay is
15100 ms. -/
theorem gdpr_C5_counterexample :
    (0 : ℚ) ≤ 100 ∧ (100 : ℚ) < 250 ∧
      ¬ calculateBackoff 4 100 ≤ 15000 := by
  refine ⟨by norm_num, by norm_num, ?_⟩
  simp only [calculateBackoff, backoffBase]
  norm_num

/-- C5 (amended): a batch whose every response is a transient failure —
a 5xx response or a transport-level (thrown) error, in any mixture — is
attempted exactly `maxAttempts` times; the jitter-free backoff component
is non-decreasing in the attempt number and bounded by the 15000 ms cap;
the actual delay (with jitter in `[0, 250)`) is bounded by cap plus the
jitter bound, not by the cap itself. -/
theorem gdpr_C5_retry_backoff (bIdx : Nat) (chunk : List String)
    (resp : Nat → FetchResp) (maxAttempts a b : Nat) (j : ℚ)
    (htr : ∀ att, (∃ s, resp att = .serverError s) ∨
      (∃ m, resp att = .networkError m))
    (hab : a ≤ b) (hj0 : 0 ≤ j) (hj1 : j < 250) :
    (runAttempts maxAttempts bIdx chunk resp maxAttempts 0).1.length =
      maxAttempts ∧
    backoffBase a ≤ backoffBase b ∧
    backoffBase a ≤ 15000 ∧
    calculateBackoff a j < 15000 + 250 := by
  refine ⟨runAttempts_transient_length maxAttempts bIdx chunk resp htr
    maxAttempts 0, ?_, ?_, ?_⟩
  · simp only [backoffBase]
    have hpow : (1000 : Nat) * 2 ^ a ≤ 1000 * 2 ^ b :=
      Nat.mul_le_mul_left 1000 (Nat.pow_le_pow_right (by norm_num) hab)
    exact min_le_min (le_refl 15000) hpow
  · exact min_le_left _ _
  · simp only [calculateBackoff]
    have hcap : backoffBase a ≤ 15000 := min_le_left _ _
    have hcapQ : (backoffBase a : ℚ) ≤ 15000 := by exact_mod_cast hcap
    linarith

/-- C5 witness: the amended backoff/retry theorem applied at a concrete
batch with mixed persistent transient failures — 503 responses on even
attempts, transport errors on odd attempts — over five attempts, and a
concrete attempt pair. -/
theorem gdpr_C5_retry_backoff_witness :
    (runAttempts 5 0 ["u1"]
      (fun att => if att % 2 = 0 then .serverError 503
        else .networkError "reset") 5 0).1.length = 5 ∧
    backoffBase 1 ≤ backoffBase 2 ∧
    backoffBase 1 ≤ 15000 ∧
    calculateBackoff 1 100 < 15000 + 250 :=
  gdpr_C5_retry_backoff 0 ["u1"]
    (fun att => if att % 2 = 0 then .serverError 503
      else .networkError "reset") 5 1 2 100
    (fun att => by
      by_cases h : att % 2 = 0
      · exact Or.inl ⟨503, by simp [h]⟩
      · exact Or.inr ⟨"reset", by simp [h]⟩)
    (by norm_num) (by norm_num) (by norm_num)

/-- C8: for every identifier set (no-duplicate list) and partition size
`C ≥ 1`, the slicing loop shared by the relational engine (chunks) and
the external client (batches) yields pieces of size at most `C`,
pairwise disjoint, whose concatenation — hence union — is exactly the
input set. -/
theorem gdpr_C8_partition (l : List String) (C : Nat) (hC : 1 ≤ C)
    (hnd : l.Nodup) :
    (∀ c ∈ chunksOf C l, c.length ≤ C) ∧
    (chunksOf C l).flatten = l ∧
    (chunksOf C l).Pairwise List.Disjoint ∧
    (∀ c ∈ chunksOf C l, c.Nodup) :=
  ⟨fun _ hc => length_le_of_mem_chunksOf hc,
   chunksOf_flatten C hC l,
   (chunksOf_pairwise_disjoint hC hnd).1,
   (chunksOf_pairwise_disjoint hC hnd).2⟩

/-- C8 witness: the partition theorem applied at a concrete identifier
set and partition size. -/
theorem gdpr_C8_partition_witness :
    (∀ c ∈ chunksOf 2 ["u1", "u2", "u3"], c.length ≤ 2) ∧
    (chunksOf 2 ["u1", "u2", "u3"]).flatten = ["u1", "u2", "u3"] ∧
    (chunksOf 2 ["u1", "u2", "u3"]).Pairwise List.Disjoint ∧
    (∀ c ∈ chunksOf 2 ["u1", "u2", "u3"], c.Nodup) :=
  gdpr_C8_partition ["u1", "u2", "u3"] 2 (by norm_num) (by decide)

/-- C9: the deduplicated identifier set contains no repeated elements
and is no longer than the input list; on the concrete Scenario A input
`["u1","u2","u1"]` it is `["u1","u2"]` with uniqueCount 2. -/
theorem gdpr_C9_dedup (l : List String) (hne : l ≠ []) :
    (dedupFirst l).Nodup ∧
    (dedupFirst l).length ≤ l.length ∧
    dedupFirst ["u1", "u2", "u1"] = ["u1", "u2"] ∧
    (dedupFirst ["u1", "u2", "u1"]).length = 2 :=
  ⟨dedupFirst_nodup l, dedupFirst_length_le l, by decide, by decide⟩

/-- C9 witness: the deduplication theorem applied at the Scenario A
input. -/
theorem gdpr_C9_dedup_witness :
    (dedupFirst ["u1", "u2", "u1"]).Nodup ∧
    (dedupFirst ["u1", "u2", "u1"]).length ≤ (["u1", "u2", "u1"] : List String).length ∧
    dedupFirst ["u1", "u2", "u1"] = ["u1", "u2"] ∧
    (dedupFirst ["u1", "u2", "u1"]).length = 2 :=
  gdpr_C9_dedup ["u1", "u2", "u1"] (by decide)

/-- C10: calling the external eraser with an empty (falsy) API key
throws `Missing Amplitude API key` before any batching, outcome entry
or network call — the result is the thrown error, never an `ok` outcome
carrying a trace or per-identifier entries. -/
theorem gdpr_C10_missing_key (publicIds : List String)
    (batchSize concurrentBatches maxAttempts : Nat)
    (resp : Nat → Nat → FetchResp) :
    deleteUsersAmplitude publicIds "" batchSize concurrentBatches
        maxAttempts resp = .error "Missing Amplitude API key" ∧
    ∀ out, deleteUsersAmplitude publicIds "" batchSize concurrentBatches
        maxAttempts resp ≠ .ok out := by
  constructor
  · simp [deleteUsersAmplitude]
  · intro out h
    simp [deleteUsersAmplitude] at h

/-- C3: if any statement of chunk `k`'s transaction fails (BEGIN,
staging-table creation, bulk load, deletion SQL, or COMMIT), the
relational engine rolls that chunk back, attempts no later chunk
(no event of any chunk past `k` appears), and surfaces the error;
every earlier chunk committed and is never rolled back afterwards
(at-least-once per chunk, not atomic across the set). -/
theorem gdpr_C3_chunk_failure (ids : List String) (chunkSize : Nat)
    (ok : Nat → DbStep → Bool) (k : Nat)
    (hk : k < (chunksOf chunkSize ids).length)
    (hpre : ∀ j, j < k → chunkSucceeds (ok j) = true)
    (hfail : chunkSucceeds (ok k) = false) :
    (runGdprSqlWithTempTable ids chunkSize ok).2 =
      .error "relational chunk failed" ∧
    Event.rollback k ∈ (runGdprSqlWithTempTable ids chunkSize ok).1 ∧
    (∀ j, j < k →
      Event.commitTx j ∈ (runGdprSqlWithTempTable ids chunkSize ok).1) ∧
    (∀ e ∈ (runGdprSqlWithTempTable ids chunkSize ok).1,
      ∀ c, eventChunkIdx e = some c → c ≤ k) ∧
    (∀ j, j < k →
      Event.rollback j ∉ (runGdprSqlWithTempTable ids chunkSize ok).1) := by
  obtain ⟨h1, h2, h3, h4, h5⟩ :=
    runChunks_firstFail (chunksOf chunkSize ids) ok 0 k hk
      (fun j hj => by simpa using hpre j hj) (by simpa using hfail)
  refine ⟨h1, by simpa using h2, fun j hj => by simpa using h3 j hj,
    fun e he c hc => by have := h4 e he c hc; omega,
    fun j hj => h5 j (by omega)⟩

/-- C3 witness: three singleton chunks, the deletion SQL of chunk 1
fails; chunk 0 committed and stays committed, chunk 1 rolled back,
chunk 2 never attempted. -/
theorem gdpr_C3_chunk_failure_witness :
    (runGdprSqlWithTempTable ["u1", "u2", "u3"] 1
        (fun i s => !(i == 1 && s == DbStep.execSql))).2 =
      .error "relational chunk failed" ∧
    Event.rollback 1 ∈ (runGdprSqlWithTempTable ["u1", "u2", "u3"] 1
      (fun i s => !(i == 1 && s == DbStep.execSql))).1 ∧
    (∀ j, j < 1 → Event.commitTx j ∈
      (runGdprSqlWithTempTable ["u1", "u2", "u3"] 1
        (fun i s => !(i == 1 && s == DbStep.execSql))).1) ∧
    (∀ e ∈ (runGdprSqlWithTempTable ["u1", "u2", "u3"] 1
        (fun i s => !(i == 1 && s == DbStep.execSql))).1,
      ∀ c, eventChunkIdx e = some c → c ≤ 1) ∧
    (∀ j, j < 1 → Event.rollback j ∉
      (runGdprSqlWithTempTable ["u1", "u2", "u3"] 1
        (fun i s => !(i == 1 && s == DbStep.execSql))).1) :=
  gdpr_C3_chunk_failure ["u1", "u2", "u3"] 1
    (fun i s => !(i == 1 && s == DbStep.execSql)) 1
    (by decide) (by decide) (by decide)

/-- C2: when the relational purge engine fails, the run records the
database stage as failed, exits with code 1 (terminal status fatal)
and the external eraser is never invoked: the trace contains no fetch
event at all. -/
theorem gdpr_C2_relational_fatal (inputIds : List String)
    (cfg : MainConfig) (dbOk : Nat → DbStep → Bool)
    (resp : Nat → Nat → FetchResp) (apiKey : String)
    (signalTime : Option Nat) (e : String)
    (hne : inputIds.isEmpty = false)
    (hflag : flagSet signalTime 0 = false)
    (he : (runGdprSqlWithTempTable (dedupFirst inputIds) cfg.chunkSize
      dbOk).2 = .error e) :
    (mainRun inputIds cfg dbOk resp apiKey signalTime).exitCode = 1 ∧
    (mainRun inputIds cfg dbOk resp apiKey signalTime).report.databaseStatus
      = .failed ∧
    (∀ b a ids, Event.fetch b a ids ∉
      (mainRun inputIds cfg dbOk resp apiKey signalTime).trace) ∧
    terminalStatus
      (mainRun inputIds cfg dbOk resp apiKey signalTime).exitCode = .fatal := by
  rw [mainRun_db_error inputIds cfg dbOk resp apiKey signalTime e hne hflag he]
  refine ⟨rfl, rfl, ?_, rfl⟩
  intro b a ids
  exact runChunks_no_fetch

/-- C2 witness: a single chunk whose COMMIT fails; exit code 1, database
failed, no external call issued. -/
theorem gdpr_C2_relational_fatal_witness :
    (mainRun ["u1"] ⟨false, 10, 300, 4, 5⟩
        (fun _ s => !(s == DbStep.commitTx)) (fun _ _ => .success) "key"
        none).exitCode = 1 ∧
    (mainRun ["u1"] ⟨false, 10, 300, 4, 5⟩
        (fun _ s => !(s == DbStep.commitTx)) (fun _ _ => .success) "key"
        none).report.databaseStatus = .failed ∧
    (∀ b a ids, Event.fetch b a ids ∉
      (mainRun ["u1"] ⟨false, 10, 300, 4, 5⟩
        (fun _ s => !(s == DbStep.commitTx)) (fun _ _ => .success) "key"
        none).trace) ∧
    terminalStatus (mainRun ["u1"] ⟨false, 10, 300, 4, 5⟩
        (fun _ s => !(s == DbStep.commitTx)) (fun _ _ => .success) "key"
        none).exitCode = .fatal :=
  gdpr_C2_relational_fatal ["u1"] ⟨false, 10, 300, 4, 5⟩
    (fun _ s => !(s == DbStep.commitTx)) (fun _ _ => .success) "key" none
    "relational chunk failed" (by decide) rfl rfl

/-- C4: for every deduplicated identifier set and every combination of
batch outcomes (the network oracle is arbitrary, covering success,
permanent failure, transient failures and exhausted retries), the
outcome list returned by the external eraser has exactly one entry per
identifier: its projection to ids equals the input, each input id is
counted once and no other id appears. -/
theorem gdpr_C4_outcome_coverage (ids : List String) (apiKey : String)
    (batchSize concurrentBatches maxAttempts : Nat)
    (resp : Nat → Nat → FetchResp)
    (hnd : ids.Nodup) (hb : 1 ≤ batchSize) (hkey : ¬ apiKey = "") :
    ∀ out, deleteUsersAmplitude ids apiKey batchSize concurrentBatches
        maxAttempts resp = .ok out →
      out.2.map (fun r => r.id) = ids ∧
      (∀ id ∈ ids, (out.2.map fun r => r.id).count id = 1) ∧
      (∀ id, id ∉ ids → (out.2.map fun r => r.id).count id = 0) := by
  intro out hout
  simp only [deleteUsersAmplitude, if_neg hkey, Except.ok.injEq] at hout
  subst hout
  have hflat : (chunksOf batchSize ids).flatten = ids :=
    chunksOf_flatten batchSize hb ids
  have hmap : (runBatches resp maxAttempts (chunksOf batchSize ids)
      0 []).2.map (fun r => r.id) = ids := by
    rw [runBatches_snd resp maxAttempts (chunksOf batchSize ids) 0 []
      (by simpa [hflat] using hnd)]
    simp only [List.nil_append]
    rw [allBatchEntries_map_id, hflat]
  refine ⟨hmap, ?_, ?_⟩
  · intro id hid
    rw [hmap]
    exact List.count_eq_one_of_mem hnd hid
  · intro id hid
    rw [hmap]
    exact List.count_eq_zero_of_not_mem hid

/-- C4 witness: three identifiers in two batches, first batch succeeds
and second exhausts its single attempt on a transport error. -/
theorem gdpr_C4_outcome_coverage_witness :
    ((runBatches (fun b _ => if b == 0 then .success
        else .networkError "boom") 1 (chunksOf 2 ["u1", "u2", "u3"])
      0 []).2.map (fun r => r.id) = ["u1", "u2", "u3"]) ∧
    (∀ id ∈ ["u1", "u2", "u3"],
      ((runBatches (fun b _ => if b == 0 then .success
          else .networkError "boom") 1 (chunksOf 2 ["u1", "u2", "u3"])
        0 []).2.map fun r => r.id).count id = 1) ∧
    (∀ id, id ∉ ["u1", "u2", "u3"] →
      ((runBatches (fun b _ => if b == 0 then .success
          else .networkError "boom") 1 (chunksOf 2 ["u1", "u2", "u3"])
        0 []).2.map fun r => r.id).count id = 0) :=
  gdpr_C4_outcome_coverage ["u1", "u2", "u3"] "key" 2 4 1
    (fun b _ => if b == 0 then .success else .networkError "boom")
    (by decide) (by norm_num) (by decide) _ rfl

theorem batchEntries_clientError (maxA bIdx : Nat) (chunk : List String)
    (resp : Nat → FetchResp) (status : Nat) (text : String)
    (hm : 1 ≤ maxA) (hresp : resp 0 = .clientError status text) :
    batchEntries maxA bIdx chunk resp =
      chunk.map fun id =>
        ⟨id, false, some ("Amplitude " ++ toString status ++ ": " ++ text)⟩ := by
  match maxA, hm with
  | m + 1, _ =>
    simp only [batchEntries]
    rw [runAttempts_clientError_first (m + 1) bIdx chunk resp m 0 status text
      hresp]
    match chunk with
    | [] => simp
    | y :: ys => rw [if_neg (by simp)]

theorem runGdprSql_filter_fetch (ids : List String) (cs : Nat)
    (ok : Nat → DbStep → Bool) (j : Nat) :
    (runGdprSqlWithTempTable ids cs ok).1.filter (isFetchOf j) = [] := by
  rw [List.filter_eq_nil_iff]
  intro e he
  obtain ⟨c, hc⟩ := runChunks_mem_chunkIdx (chunksOf cs ids) ok 0 e he
  cases e <;> simp_all [isFetchOf, eventChunkIdx]

theorem mem_allBatchEntries (maxA : Nat) (resp : Nat → Nat → FetchResp) :
    ∀ (chunks : List (List String)) (idx j : Nat) (hj : j < chunks.length)
      (x : AmplitudeResult),
      x ∈ batchEntries maxA (idx + j) (chunks.get ⟨j, hj⟩) (resp (idx + j)) →
      x ∈ allBatchEntries maxA resp chunks idx := by
  intro chunks
  induction chunks with
  | nil => intro idx j hj; simp at hj
  | cons c rest ih =>
    intro idx j hj x hx
    simp only [allBatchEntries]
    match j with
    | 0 =>
      refine List.mem_append.mpr (Or.inl ?_)
      simpa using hx
    | j'' + 1 =>
      refine List.mem_append.mpr (Or.inr ?_)
      have harith : idx + (j'' + 1) = (idx + 1) + j'' := by omega
      rw [harith] at hx
      exact ih (idx + 1) j'' (by simp at hj; omega) x hx

/-- C6: a batch whose first response is a permanent (4xx) failure is
attempted exactly once (the whole run trace holds exactly one fetch of
that batch), every identifier of the batch is marked `ok: false` with
the failure detail, the run's outcome list decomposes into independent
per-batch entries (so sibling batches are unaffected by this batch's
oracle), and — the relational stage having succeeded — the run exits
with code 2, terminal status partial rather than fatal. -/
theorem gdpr_C6_permanent_failure (inputIds : List String)
    (cfg : MainConfig) (dbOk : Nat → DbStep → Bool)
    (resp : Nat → Nat → FetchResp) (apiKey : String) (j status : Nat)
    (text : String)
    (hne : inputIds.isEmpty = false)
    (hb : 1 ≤ cfg.batchSize)
    (hm : 1 ≤ cfg.maxAttempts)
    (hkey : ¬ apiKey = "")
    (hok : (runGdprSqlWithTempTable (dedupFirst inputIds) cfg.chunkSize
      dbOk).2 = .ok ())
    (hj : j < (chunksOf cfg.batchSize (dedupFirst inputIds)).length)
    (hresp : resp j 0 = .clientError status text) :
    ((mainRun inputIds cfg dbOk resp apiKey none).trace.filter
      (isFetchOf j)).length = 1 ∧
    batchEntries cfg.maxAttempts j
        ((chunksOf cfg.batchSize (dedupFirst inputIds)).get ⟨j, hj⟩)
        (resp j) =
      ((chunksOf cfg.batchSize (dedupFirst inputIds)).get ⟨j, hj⟩).map
        (fun id =>
          ⟨id, false, some ("Amplitude " ++ toString status ++ ": " ++ text)⟩) ∧
    (mainRun inputIds cfg dbOk resp apiKey none).report.amplitudeResults =
      allBatchEntries cfg.maxAttempts resp
        (chunksOf cfg.batchSize (dedupFirst inputIds)) 0 ∧
    (mainRun inputIds cfg dbOk resp apiKey none).exitCode = 2 ∧
    terminalStatus (mainRun inputIds cfg dbOk resp apiKey none).exitCode =
      .partialSuccess := by
  have hrw := mainRun_db_ok_amp inputIds cfg dbOk resp apiKey none hne rfl
    hok rfl hkey
  have hflat : (chunksOf cfg.batchSize (dedupFirst inputIds)).flatten =
      dedupFirst inputIds :=
    chunksOf_flatten cfg.batchSize hb (dedupFirst inputIds)
  have hndflat : (((([] : List AmplitudeResult).map fun r => r.id)
      ++ (chunksOf cfg.batchSize (dedupFirst inputIds)).flatten)).Nodup := by
    simpa [hflat] using dedupFirst_nodup inputIds
  have hsnd := runBatches_snd resp cfg.maxAttempts
    (chunksOf cfg.batchSize (dedupFirst inputIds)) 0 [] hndflat
  simp only [List.nil_append] at hsnd
  have hchunk := batchEntries_clientError cfg.maxAttempts j
    ((chunksOf cfg.batchSize (dedupFirst inputIds)).get ⟨j, hj⟩) (resp j)
    status text hm hresp
  have hchunk_ne : (chunksOf cfg.batchSize (dedupFirst inputIds)).get
      ⟨j, hj⟩ ≠ [] :=
    ne_nil_of_mem_chunksOf hb
      (List.get_mem (chunksOf cfg.batchSize (dedupFirst inputIds)) j hj)
  -- one failing entry in the run's results
  have hfailmem : ∃ x ∈ (runBatches resp cfg.maxAttempts
      (chunksOf cfg.batchSize (dedupFirst inputIds)) 0 []).2,
      (!x.ok) = true := by
    match hget : (chunksOf cfg.batchSize (dedupFirst inputIds)).get
        ⟨j, hj⟩, hchunk_ne with
    | y :: ys, _ =>
      refine ⟨⟨y, false,
        some ("Amplitude " ++ toString status ++ ": " ++ text)⟩, ?_, rfl⟩
      rw [hsnd]
      have hmemb : (⟨y, false,
          some ("Amplitude " ++ toString status ++ ": " ++ text)⟩ :
          AmplitudeResult) ∈ batchEntries cfg.maxAttempts j
            ((chunksOf cfg.batchSize (dedupFirst inputIds)).get ⟨j, hj⟩)
            (resp j) := by
        rw [hchunk, hget]
        simp
      have h0j : (0 : Nat) + j = j := Nat.zero_add j
      refine mem_allBatchEntries cfg.maxAttempts resp
        (chunksOf cfg.batchSize (dedupFirst inputIds)) 0 j hj _ ?_
      rw [h0j]
      exact hmemb
  have hfailpos : 0 < ((runBatches resp cfg.maxAttempts
      (chunksOf cfg.batchSize (dedupFirst inputIds)) 0 []).2.filter
        fun r => !r.ok).length := by
    obtain ⟨x, hx, hxok⟩ := hfailmem
    exact List.length_pos_of_mem (List.mem_filter.mpr ⟨hx, hxok⟩)
  refine ⟨?_, hchunk, ?_, ?_, ?_⟩
  · -- exactly one fetch of batch j in the whole trace
    rw [hrw]
    simp only [List.filter_append]
    rw [runGdprSql_filter_fetch, List.nil_append]
    rw [runBatches_fst]
    have h0j : j = 0 + j := (Nat.zero_add j).symm
    rw [h0j]
    rw [allBatchEvents_filter cfg.maxAttempts resp
      (chunksOf cfg.batchSize (dedupFirst inputIds)) 0 j hj]
    rw [show (0 : Nat) + j = j from Nat.zero_add j]
    match hma : cfg.maxAttempts, hm with
    | m + 1, _ =>
      rw [runAttempts_clientError_first (m + 1) j _ (resp j) m 0 status text
        hresp]
      simp [isFetchOf]
  · rw [hrw]
    exact hsnd
  · rw [hrw]
    simp only [if_pos hfailpos]
  · rw [hrw]
    simp only [if_pos hfailpos]
    rfl

/-- C6 witness: Scenario C — four identifiers in two batches, batch 1
(`u3`,`u4`) answered with a permanent 400 while batch 0 and the
relational stage succeed. -/
theorem gdpr_C6_permanent_failure_witness :
    ((mainRun ["u1", "u2", "u3", "u4"] ⟨false, 10, 2, 4, 5⟩
        (fun _ _ => true)
        (fun b _ => if b == 1 then .clientError 400 "bad" else .success)
        "key" none).trace.filter (isFetchOf 1)).length = 1 ∧
    batchEntries 5 1
        ((chunksOf 2 (dedupFirst ["u1", "u2", "u3", "u4"])).get
          ⟨1, by decide⟩)
        ((fun b _ => if b == 1 then .clientError 400 "bad"
          else FetchResp.success) 1) =
      ((chunksOf 2 (dedupFirst ["u1", "u2", "u3", "u4"])).get
          ⟨1, by decide⟩).map
        (fun id => ⟨id, false, some ("Amplitude " ++ toString 400
          ++ ": " ++ "bad")⟩) ∧
    (mainRun ["u1", "u2", "u3", "u4"] ⟨false, 10, 2, 4, 5⟩
        (fun _ _ => true)
        (fun b _ => if b == 1 then .clientError 400 "bad" else .success)
        "key" none).report.amplitudeResults =
      allBatchEntries 5
        (fun b _ => if b == 1 then .clientError 400 "bad" else .success)
        (chunksOf 2 (dedupFirst ["u1", "u2", "u3", "u4"])) 0 ∧
    (mainRun ["u1", "u2", "u3", "u4"] ⟨false, 10, 2, 4, 5⟩
        (fun _ _ => true)
        (fun b _ => if b == 1 then .clientError 400 "bad" else .success)
        "key" none).exitCode = 2 ∧
    terminalStatus (mainRun ["u1", "u2", "u3", "u4"] ⟨false, 10, 2, 4, 5⟩
        (fun _ _ => true)
        (fun b _ => if b == 1 then .clientError 400 "bad" else .success)
        "key" none).exitCode = .partialSuccess :=
  gdpr_C6_permanent_failure ["u1", "u2", "u3", "u4"] ⟨false, 10, 2, 4, 5⟩
    (fun _ _ => true)
    (fun b _ => if b == 1 then .clientError 400 "bad" else .success)
    "key" 1 400 "bad" (by decide) (by norm_num) (by norm_num) (by decide)
    rfl (by decide) rfl

theorem fetch_mem_allBatchEvents (maxA : Nat) (resp : Nat → Nat → FetchResp)
    (hm : 1 ≤ maxA) :
    ∀ (chunks : List (List String)) (idx j : Nat) (hj : j < chunks.length),
      Event.fetch (idx + j) 0 (chunks.get ⟨j, hj⟩) ∈
        allBatchEvents maxA resp chunks idx := by
  intro chunks
  induction chunks with
  | nil => intro idx j hj; simp at hj
  | cons c rest ih =>
    intro idx j hj
    simp only [allBatchEvents]
    match j with
    | 0 =>
      refine List.mem_append.mpr (Or.inl ?_)
      simpa using runAttempts_first_fetch maxA idx c (resp idx) maxA 0 hm
    | j'' + 1 =>
      refine List.mem_append.mpr (Or.inr ?_)
      have harith : idx + (j'' + 1) = (idx + 1) + j'' := by omega
      rw [harith]
      exact ih (idx + 1) j'' (by simp at hj; omega)

/-- C7 counterexample: the claim that the cancellation flag is checked
before each external batch is scheduled — so that no batch whose
scheduling point follows the signal is issued — is false.  With two
single-identifier batches and the signal arriving at logical time 6
(the trace position at which batch 1 is scheduled: after the five
relational events and batch 0's fetch), the flag is set at batch 1's
scheduling point, yet batch 1's fetch is still issued: the source's
`deleteUsersAmplitude` never consults the abort flag. -/
theorem gdpr_C7_counterexample :
    flagSet (some 6) 6 = true ∧
    (mainRun ["u1", "u2"] ⟨false, 10, 1, 4, 5⟩ (fun _ _ => true)
        (fun _ _ => .success) "key" (some 6)).trace =
      [.beginTx 0, .createTemp 0, .insertIds 0 ["u1", "u2"], .execSql 0,
       .commitTx 0, .fetch 0 0 ["u1"], .fetch 1 0 ["u2"]] ∧
    Event.fetch 1 0 ["u2"] ∈ (mainRun ["u1", "u2"] ⟨false, 10, 1, 4, 5⟩
      (fun _ _ => true) (fun _ _ => .success) "key" (some 6)).trace := by
  decide

/-- C7 (amended): the cooperative flag is checked exactly twice — before
the relational engine starts, and once more after it, before the
external stage is invoked.  A signal observed at the first check stops
the run before any relational or external work; one observed at the
second check stops it before any external call.  The external client
itself never consults the flag: once the external stage begins, every
batch is issued regardless of the signal's timing. -/
theorem gdpr_C7_cancellation (inputIds : List String) (cfg : MainConfig)
    (dbOk : Nat → DbStep → Bool) (resp : Nat → Nat → FetchResp)
    (apiKey : String)
    (hne : inputIds.isEmpty = false)
    (hb : 1 ≤ cfg.batchSize) (hm : 1 ≤ cfg.maxAttempts)
    (hkey : ¬ apiKey = "") :
    (∀ t, flagSet t 0 = true →
      mainRun inputIds cfg dbOk resp apiKey t =
        { trace := [], report := baseReport inputIds cfg, exitCode := 1 }) ∧
    (∀ t, flagSet t 0 = false →
      (runGdprSqlWithTempTable (dedupFirst inputIds) cfg.chunkSize
        dbOk).2 = .ok () →
      flagSet t (runGdprSqlWithTempTable (dedupFirst inputIds)
        cfg.chunkSize dbOk).1.length = true →
      (mainRun inputIds cfg dbOk resp apiKey t).exitCode = 1 ∧
      ∀ b a ids, Event.fetch b a ids ∉
        (mainRun inputIds cfg dbOk resp apiKey t).trace) ∧
    (∀ t, flagSet t 0 = false →
      (runGdprSqlWithTempTable (dedupFirst inputIds) cfg.chunkSize
        dbOk).2 = .ok () →
      flagSet t (runGdprSqlWithTempTable (dedupFirst inputIds)
        cfg.chunkSize dbOk).1.length = false →
      ∀ j (hj : j < (chunksOf cfg.batchSize (dedupFirst inputIds)).length),
        Event.fetch j 0
            ((chunksOf cfg.batchSize (dedupFirst inputIds)).get ⟨j, hj⟩) ∈
          (mainRun inputIds cfg dbOk resp apiKey t).trace) := by
  refine ⟨?_, ?_, ?_⟩
  · intro t ht
    exact mainRun_abort_before_db inputIds cfg dbOk resp apiKey t hne ht
  · intro t ht0 hok ht1
    rw [mainRun_abort_after_db inputIds cfg dbOk resp apiKey t hne ht0 hok
      ht1]
    exact ⟨rfl, fun b a ids => runChunks_no_fetch⟩
  · intro t ht0 hok ht1 j hj
    rw [mainRun_db_ok_amp inputIds cfg dbOk resp apiKey t hne ht0 hok ht1
      hkey]
    refine List.mem_append.mpr (Or.inr ?_)
    rw [runBatches_fst]
    have := fetch_mem_allBatchEvents cfg.maxAttempts resp hm
      (chunksOf cfg.batchSize (dedupFirst inputIds)) 0 j hj
    simpa using this

/-- C7 witness: the amended cancellation theorem applied at a concrete
run with two single-identifier batches. -/
theorem gdpr_C7_cancellation_witness :
    (∀ t, flagSet t 0 = true →
      mainRun ["u1", "u2"] ⟨false, 10, 1, 4, 5⟩ (fun _ _ => true)
          (fun _ _ => .success) "key" t =
        { trace := [],
          report := baseReport ["u1", "u2"] ⟨false, 10, 1, 4, 5⟩,
          exitCode := 1 }) ∧
    (∀ t, flagSet t 0 = false →
      (runGdprSqlWithTempTable (dedupFirst ["u1", "u2"]) 10
        (fun _ _ => true)).2 = .ok () →
      flagSet t (runGdprSqlWithTempTable (dedupFirst ["u1", "u2"]) 10
        (fun _ _ => true)).1.length = true →
      (mainRun ["u1", "u2"] ⟨false, 10, 1, 4, 5⟩ (fun _ _ => true)
        (fun _ _ => .success) "key" t).exitCode = 1 ∧
      ∀ b a ids, Event.fetch b a ids ∉
        (mainRun ["u1", "u2"] ⟨false, 10, 1, 4, 5⟩ (fun _ _ => true)
          (fun _ _ => .success) "key" t).trace) ∧
    (∀ t, flagSet t 0 = false →
      (runGdprSqlWithTempTable (dedupFirst ["u1", "u2"]) 10
        (fun _ _ => true)).2 = .ok () →
      flagSet t (runGdprSqlWithTempTable (dedupFirst ["u1", "u2"]) 10
        (fun _ _ => true)).1.length = false →
      ∀ j (hj : j < (chunksOf 1 (dedupFirst ["u1", "u2"])).length),
        Event.fetch j 0
            ((chunksOf 1 (dedupFirst ["u1", "u2"])).get ⟨j, hj⟩) ∈
          (mainRun ["u1", "u2"] ⟨false, 10, 1, 4, 5⟩ (fun _ _ => true)
            (fun _ _ => .success) "key" t).trace) :=
  gdpr_C7_cancellation ["u1", "u2"] ⟨false, 10, 1, 4, 5⟩ (fun _ _ => true)
    (fun _ _ => .success) "key" (by decide) (by norm_num) (by norm_num)
    (by decide)

end Gdpr
